import Mathlib

/-!
Verification of the Black-Scholes pricing/Greeks engine (`greeks.py`) and
the path simulator (`simulation.py`).

Modelling conventions:
* Python floats are modelled as real numbers (`ℝ`).
* Python arithmetic that can raise (`math.log` on non-positive input,
  `math.sqrt` on negative input, float division by zero) is modelled by
  `Except String ℝ` values (`pylog`, `pysqrt`, `pydiv`), so a Python
  exception becomes an `Except.error`.
* `scipy.stats.norm.cdf` is an external library function; it is modelled
  as a parameter `Φ : ℝ → ℝ`, with its documented properties taken as
  hypotheses where a theorem needs them.
* `option_type.lower()` is modelled by `lower`, the character-wise
  lower-casing of the string (which agrees with Python on ASCII input).
* The numpy global random generator is modelled by an explicit state
  (`Rng` section below): seeding replaces the ambient state with a state
  derived from the seed alone.
-/

namespace Greeks

/-- Python `s.lower()`: lower-case every character of the string. -/
def lower (s : String) : String := ⟨s.data.map Char.toLower⟩

/-- Python float division `a / b`: raises ZeroDivisionError when `b == 0`. -/
noncomputable def pydiv (a b : ℝ) : Except String ℝ :=
  if b = 0 then .error "float division by zero" else .ok (a / b)

/-- Python `math.log x`: raises ValueError (math domain error) when `x <= 0`. -/
noncomputable def pylog (x : ℝ) : Except String ℝ :=
  if x ≤ 0 then .error "math domain error" else .ok (Real.log x)

/-- Python `math.sqrt x`: raises ValueError (math domain error) when `x < 0`. -/
noncomputable def pysqrt (x : ℝ) : Except String ℝ :=
  if x < 0 then .error "math domain error" else .ok (Real.sqrt x)

/-- `d_1` from greeks.py:
`(log(S / K) + (r + 0.5 * sigma**2) * T) / (sigma * sqrt(T))`,
evaluated in Python order: `S / K`, then `log`, then `sqrt(T)`, then the
final division. -/
noncomputable def d_1 (S K T r sigma : ℝ) : Except String ℝ := do
  let q ← pydiv S K
  let l ← pylog q
  let s ← pysqrt T
  pydiv (l + (r + 0.5 * sigma ^ 2) * T) (sigma * s)

/-- `d_2` from greeks.py: `d_1(S, K, T, r, sigma) - sigma * sqrt(T)`. -/
noncomputable def d_2 (S K T r sigma : ℝ) : Except String ℝ := do
  let d1 ← d_1 S K T r sigma
  let s ← pysqrt T
  .ok (d1 - sigma * s)

/-- `pdf` from greeks.py: `(1.0 / sqrt(2 * pi)) * exp(-0.5 * x * x)`.
`2 * pi > 0` so the sqrt and the division never raise. -/
noncomputable def pdf (x : ℝ) : ℝ :=
  (1.0 / Real.sqrt (2 * Real.pi)) * Real.exp (-0.5 * x * x)

/-- `option_price` from greeks.py. `Φ` models `scipy.stats.norm.cdf`. -/
noncomputable def option_price (Φ : ℝ → ℝ) (option_type : String)
    (S K T r sigma : ℝ) : Except String ℝ :=
  if T ≤ 0 then
    if lower option_type = "call" then .ok (max (S - K) 0.0)
    else if lower option_type = "put" then .ok (max (K - S) 0.0)
    else .error "option_type must be call or put"
  else do
    let d1 ← d_1 S K T r sigma
    let d2 ← d_2 S K T r sigma
    if lower option_type = "call" then
      .ok (S * Φ d1 - K * Real.exp (-r * T) * Φ d2)
    else if lower option_type = "put" then
      .ok (K * Real.exp (-r * T) * Φ (-d2) - S * Φ (-d1))
    else .error "option_type must be call or put"

/-- `delta` from greeks.py. Note that on the `T <= 0` branch the code has a
bare `else`: any string that does not lower-case to "call" takes the put
step function, with no validation. -/
noncomputable def delta (Φ : ℝ → ℝ) (option_type : String)
    (S K T r sigma : ℝ) : Except String ℝ :=
  if T ≤ 0 then
    if lower option_type = "call" then
      .ok (if K < S then 1.0 else 0.0)
    else
      .ok (if S < K then -1.0 else 0.0)
  else do
    let d1 ← d_1 S K T r sigma
    if lower option_type = "call" then .ok (Φ d1)
    else if lower option_type = "put" then .ok (Φ d1 - 1)
    else .error "option_type must be call or put"

/-- `gamma` from greeks.py: `0.0` when `T <= 0`, else
`pdf(d1) / (S * sigma * sqrt(T))`. Takes no option type. -/
noncomputable def gamma (S K T r sigma : ℝ) : Except String ℝ :=
  if T ≤ 0 then .ok 0.0
  else do
    let d1 ← d_1 S K T r sigma
    let s ← pysqrt T
    pydiv (pdf d1) (S * sigma * s)

/-- `vega` from greeks.py: `0.0` when `T <= 0`, else
`S * pdf(d1) * sqrt(T)`. Takes no option type. -/
noncomputable def vega (S K T r sigma : ℝ) : Except String ℝ :=
  if T ≤ 0 then .ok 0.0
  else do
    let d1 ← d_1 S K T r sigma
    let s ← pysqrt T
    .ok (S * pdf d1 * s)

/-- `theta` from greeks.py. `term1` is computed before the option-type
dispatch, matching the Python statement order. -/
noncomputable def theta (Φ : ℝ → ℝ) (option_type : String)
    (S K T r sigma : ℝ) : Except String ℝ :=
  if T ≤ 0 then .ok 0.0
  else do
    let d1 ← d_1 S K T r sigma
    let d2 ← d_2 S K T r sigma
    let s ← pysqrt T
    let term1 ← pydiv (-(S * pdf d1 * sigma)) (2 * s)
    if lower option_type = "call" then
      .ok (term1 + (-r * K * Real.exp (-r * T) * Φ d2))
    else if lower option_type = "put" then
      .ok (term1 + r * K * Real.exp (-r * T) * Φ (-d2))
    else .error "option_type must be call or put"

/-- `rho` from greeks.py. -/
noncomputable def rho (Φ : ℝ → ℝ) (option_type : String)
    (S K T r sigma : ℝ) : Except String ℝ :=
  if T ≤ 0 then .ok 0.0
  else do
    let d2 ← d_2 S K T r sigma
    if lower option_type = "call" then
      .ok (K * T * Real.exp (-r * T) * Φ d2)
    else if lower option_type = "put" then
      .ok (-K * T * Real.exp (-r * T) * Φ (-d2))
    else .error "option_type must be call or put"

/-- Value of `d1` for valid inputs (the formula from the spec and from
`d_1` once no branch raises). -/
noncomputable def d1val (S K T r sigma : ℝ) : ℝ :=
  (Real.log (S / K) + (r + 0.5 * sigma ^ 2) * T) / (sigma * Real.sqrt T)

/-- Value of `d2` for valid inputs. -/
noncomputable def d2val (S K T r sigma : ℝ) : ℝ :=
  d1val S K T r sigma - sigma * Real.sqrt T

/-- Result record of `simulate_path`: the eight index-aligned sequences
returned by simulation.py (times, spots, price and the five Greeks). -/
structure PathResult where
  times : List ℝ
  S : List ℝ
  price : List ℝ
  delta_arr : List ℝ
  gamma_arr : List ℝ
  vega_arr : List ℝ
  theta_arr : List ℝ
  rho_arr : List ℝ

/-- The simulated spot path of simulation.py: `S[0] = S0` and
`S[i+1] = S[i] * exp((r - 0.5*sigma**2)*dt + sigma*sqrt(dt)*z_i)` with
`dt = T/steps` and `z_i` the i-th standard-normal draw. (numpy `sqrt`
returns NaN rather than raising on a negative `dt`; the model is used
with `T ≥ 0` where the two agree.) -/
noncomputable def spotPath (S0 T r sigma : ℝ) (steps : ℕ) (z : ℕ → ℝ) :
    ℕ → ℝ
  | 0 => S0
  | i + 1 => spotPath S0 T r sigma steps z i *
      Real.exp ((r - 0.5 * sigma ^ 2) * (T / (steps : ℝ)) +
        sigma * Real.sqrt (T / (steps : ℝ)) * z i)

/-- One loop iteration of the greeks loop in simulation.py: the six Core
calls at one time point, in program order; the first raising call aborts
the whole simulation. -/
noncomputable def greeksAt (Φ : ℝ → ℝ) (option_type : String)
    (S K Trem r sigma : ℝ) : Except String (ℝ × ℝ × ℝ × ℝ × ℝ × ℝ) := do
  let p ← option_price Φ option_type S K Trem r sigma
  let d ← delta Φ option_type S K Trem r sigma
  let g ← gamma S K Trem r sigma
  let v ← vega S K Trem r sigma
  let th ← theta Φ option_type S K Trem r sigma
  let rh ← rho Φ option_type S K Trem r sigma
  .ok (p, d, g, v, th, rh)

/-- Run `f` at `i, i+1, ..., i+c-1` in increasing order, collecting the
results and stopping at the first error, like the Python for-loop. -/
noncomputable def collectFrom {α : Type} (f : ℕ → Except String α) :
    ℕ → ℕ → Except String (List α)
  | _, 0 => .ok []
  | i, c + 1 => do
    let x ← f i
    let xs ← collectFrom f (i + 1) c
    .ok (x :: xs)

/-- `simulate_path` from simulation.py. The time grid is
`np.linspace(0, T, steps+1)`, i.e. `t_i = i * (T/steps)` over the reals;
the spot path is `spotPath`; at each index the six Core operations are
invoked with `(S[i], K, max(T - t_i, 0), r, sigma)`. The draw sequence
`z` is supplied explicitly (see `simulate_path_seeded` for the numpy
global-generator seeding). Python would raise ZeroDivisionError at
`steps = 0`; the model is only ever used with `steps ≥ 1`. -/
noncomputable def simulate_path (Φ : ℝ → ℝ) (S0 K T r sigma : ℝ)
    (option_type : String) (steps : ℕ) (z : ℕ → ℝ) :
    Except String PathResult := do
  let gs ← collectFrom (fun i => greeksAt Φ option_type
    (spotPath S0 T r sigma steps z i) K
    (max (T - (i : ℝ) * (T / (steps : ℝ))) 0) r sigma) 0 (steps + 1)
  .ok ⟨(List.range (steps + 1)).map (fun i : ℕ => (i : ℝ) * (T / (steps : ℝ))),
    (List.range (steps + 1)).map (fun i => spotPath S0 T r sigma steps z i),
    gs.map (fun t => t.1), gs.map (fun t => t.2.1),
    gs.map (fun t => t.2.2.1), gs.map (fun t => t.2.2.2.1),
    gs.map (fun t => t.2.2.2.2.1), gs.map (fun t => t.2.2.2.2.2)⟩

/-- State of the numpy global pseudo-random generator after `n` draws
from initial state `g`, for an abstract deterministic step function
`stepFn` (numpy's generator is a fixed deterministic algorithm; its
internals are external to this repository). -/
def rngIter (stepFn : ℕ → ℝ × ℕ) (g : ℕ) : ℕ → ℕ
  | 0 => g
  | n + 1 => (stepFn (rngIter stepFn g n)).2

/-- The sequence of draws `np.random.randn()` produces from initial
generator state `g`. -/
noncomputable def draws (stepFn : ℕ → ℝ × ℕ) (g : ℕ) (n : ℕ) : ℝ :=
  (stepFn (rngIter stepFn g n)).1

/-- `simulate_path` including the seeding logic of simulation.py:
`np.random.seed(seed)` replaces the ambient global generator state `g`
by a state computed from the seed alone (`seedFn seed`); with
`seed=None` the ambient state is used as-is. -/
noncomputable def simulate_path_seeded (Φ : ℝ → ℝ) (stepFn : ℕ → ℝ × ℕ)
    (seedFn : ℕ → ℕ) (g : ℕ) (seed : Option ℕ) (S0 K T r sigma : ℝ)
    (option_type : String) (steps : ℕ) : Except String PathResult :=
  simulate_path Φ S0 K T r sigma option_type steps
    (draws stepFn (match seed with | some s => seedFn s | none => g))

@[simp] theorem ok_bind {α β : Type} (a : α) (f : α → Except String β) :
    (Except.ok a >>= f) = f a := rfl

@[simp] theorem error_bind {α β : Type} (e : String) (f : α → Except String β) :
    ((Except.error e : Except String α) >>= f) = Except.error e := rfl

theorem bind_ok_iff {α β : Type} {mx : Except String α}
    {f : α → Except String β} {b : β} :
    (mx >>= f) = .ok b ↔ ∃ a, mx = .ok a ∧ f a = .ok b := by
  cases mx <;> simp

theorem d_1_ok (S K T r sigma : ℝ) (hS : 0 < S) (hK : 0 < K)
    (hT : 0 < T) (hs : 0 < sigma) :
    d_1 S K T r sigma = .ok (d1val S K T r sigma) := by
  have hK0 : K ≠ 0 := ne_of_gt hK
  have hq : ¬ S / K ≤ 0 := not_le.mpr (div_pos hS hK)
  have hsne : sigma ≠ 0 := hs.ne'
  have hsqne : Real.sqrt T ≠ 0 := (Real.sqrt_pos.mpr hT).ne'
  simp [d_1, pydiv, pylog, pysqrt, hK0, hq, not_lt.mpr hT.le, hsne, hsqne,
    d1val]

theorem d_2_ok (S K T r sigma : ℝ) (hS : 0 < S) (hK : 0 < K)
    (hT : 0 < T) (hs : 0 < sigma) :
    d_2 S K T r sigma = .ok (d2val S K T r sigma) := by
  simp [d_2, d_1_ok S K T r sigma hS hK hT hs, pysqrt, not_lt.mpr hT.le,
    d2val, Except.bind]

theorem greeksAt_ok {Φ : ℝ → ℝ} {option_type : String}
    {S K Trem r sigma : ℝ} {t : ℝ × ℝ × ℝ × ℝ × ℝ × ℝ}
    (h : greeksAt Φ option_type S K Trem r sigma = .ok t) :
    option_price Φ option_type S K Trem r sigma = .ok t.1 ∧
    delta Φ option_type S K Trem r sigma = .ok t.2.1 ∧
    gamma S K Trem r sigma = .ok t.2.2.1 ∧
    vega S K Trem r sigma = .ok t.2.2.2.1 ∧
    theta Φ option_type S K Trem r sigma = .ok t.2.2.2.2.1 ∧
    rho Φ option_type S K Trem r sigma = .ok t.2.2.2.2.2 := by
  unfold greeksAt at h
  simp only [bind_ok_iff] at h
  obtain ⟨p, hp, d, hd, g, hg, v, hv, th, hth, rh, hrh, ht⟩ := h
  rw [Except.ok.injEq] at ht
  subst ht
  exact ⟨hp, hd, hg, hv, hth, hrh⟩

theorem collectFrom_ok {α : Type} (f : ℕ → Except String α) :
    ∀ (c i : ℕ) (ys : List α), collectFrom f i c = .ok ys →
      ys.length = c ∧
      ∀ (d : α) (j : ℕ), j < c → f (i + j) = .ok (ys.getD j d) := by
  intro c
  induction c with
  | zero =>
    intro i ys h
    rw [collectFrom, Except.ok.injEq] at h
    subst h
    simp
  | succ c ih =>
    intro i ys h
    rw [collectFrom] at h
    simp only [bind_ok_iff] at h
    obtain ⟨x, hx, xs, hxs, hcons⟩ := h
    rw [Except.ok.injEq] at hcons
    subst hcons
    obtain ⟨hlen, hall⟩ := ih (i + 1) xs hxs
    refine ⟨by simp [hlen], ?_⟩
    intro d j hj
    cases j with
    | zero => simpa using hx
    | succ j =>
      have harg : i + (j + 1) = (i + 1) + j := by omega
      rw [harg, List.getD_cons_succ]
      exact hall d j (by omega)

theorem getD_map_range (f : ℕ → ℝ) (n i : ℕ) (hi : i < n) (d : ℝ) :
    ((List.range n).map f).getD i d = f i := by
  rw [List.getD_eq_getElem?_getD]
  simp [List.getElem?_map, List.getElem?_range, hi]

theorem getD_map_tuple {α β : Type} (g : α → β) (l : List α) (i : ℕ)
    (hi : i < l.length) (d : β) (d2 : α) :
    (l.map g).getD i d = g (l.getD i d2) := by
  rw [List.getD_eq_getElem?_getD, List.getD_eq_getElem?_getD]
  simp [List.getElem?_map, List.getElem?_eq_getElem hi]

/-- C1: for every option type lower-casing to "call" resp. "put" and all
`S, K, r, sigma`, when `T ≤ 0` the price is the intrinsic payoff
`max (S-K) 0` resp. `max (K-S) 0`, with no discounting and no dependence
on `sigma`, `r` or the cdf. -/
theorem option_price_at_expiry (Φ : ℝ → ℝ) (otc otp : String)
    (S K T r sigma : ℝ) (hT : T ≤ 0)
    (hc : lower otc = "call") (hp : lower otp = "put") :
    option_price Φ otc S K T r sigma = .ok (max (S - K) 0) ∧
    option_price Φ otp S K T r sigma = .ok (max (K - S) 0) := by
  norm_num [option_price, hT, hc, hp, (show ("put":String) ≠ "call" by decide)]

/-- Witness for C1: the spec scenario `T=0, S=105, K=100` gives call
price 5 and put price 0, whatever `r`, `sigma` and the cdf are. -/
theorem option_price_at_expiry_case :
    option_price (fun _ => 0) "CALL" 105 100 0 3 (-2) = .ok 5 ∧
    option_price (fun _ => 0) "Put" 105 100 0 3 (-2) = .ok 0 := by
  have h := option_price_at_expiry (fun _ => 0) "CALL" "Put" 105 100 0 3 (-2)
    le_rfl (by decide) (by decide)
  norm_num at h
  exact h

/-- C2: put-call parity. For `S, K, T, sigma > 0` and any `r`, given that
the cdf satisfies `Φ x + Φ (-x) = 1` (true of the standard normal cdf),
the call and put prices both succeed and their difference is exactly
`S - K·exp(-r·T)`. -/
theorem put_call_parity (Φ : ℝ → ℝ) (hΦ : ∀ x, Φ x + Φ (-x) = 1)
    (S K T r sigma : ℝ) (hS : 0 < S) (hK : 0 < K) (hT : 0 < T)
    (hs : 0 < sigma) :
    ∃ C P, option_price Φ "call" S K T r sigma = .ok C ∧
      option_price Φ "put" S K T r sigma = .ok P ∧
      C - P = S - K * Real.exp (-r * T) := by
  have hd1 := d_1_ok S K T r sigma hS hK hT hs
  have hd2 := d_2_ok S K T r sigma hS hK hT hs
  have hcall : option_price Φ "call" S K T r sigma =
      .ok (S * Φ (d1val S K T r sigma) -
        K * Real.exp (-r * T) * Φ (d2val S K T r sigma)) := by
    simp [option_price, not_le.mpr hT, hd1, hd2,
      (show lower "call" = "call" from rfl)]
  have hput : option_price Φ "put" S K T r sigma =
      .ok (K * Real.exp (-r * T) * Φ (-d2val S K T r sigma) -
        S * Φ (-d1val S K T r sigma)) := by
    simp [option_price, not_le.mpr hT, hd1, hd2,
      (show lower "put" = "put" from rfl),
      (show ("put":String) ≠ "call" by decide)]
  refine ⟨_, _, hcall, hput, ?_⟩
  have h1 := hΦ (d1val S K T r sigma)
  have h2 := hΦ (d2val S K T r sigma)
  linear_combination S * h1 - K * Real.exp (-r * T) * h2

/-- Witness for C2: parity holds at `S=2, K=1, T=1, r=0, sigma=1` with a
cdf satisfying the symmetry property (here the constant `1/2`). -/
theorem put_call_parity_case :
    ∃ C P, option_price (fun _ => 1/2) "call" 2 1 1 0 1 = .ok C ∧
      option_price (fun _ => 1/2) "put" 2 1 1 0 1 = .ok P ∧
      C - P = 2 - 1 * Real.exp (-0 * 1) :=
  put_call_parity (fun _ => 1/2) (fun x => by norm_num) 2 1 1 0 1
    (by norm_num) one_pos one_pos one_pos

/-- C3 counterexample: with `T ≤ 0`, `delta` does not validate the option
type at all: the string "banana" is treated like a put and the put step
value is returned, instead of an invalid-argument error. -/
theorem delta_invalid_type_defaults_to_put :
    delta (fun _ => 0) "banana" 90 100 0 0 1 = .ok (-1) := by
  norm_num [delta, (show ¬ lower "banana" = "call" by decide)]

/-- C3 amended: `option_price` rejects an invalid option type for every
`T`; `delta`, `theta` and `rho` reject it only when `T > 0` (here under
valid numeric inputs, so that the `d1`/`d2` computation itself does not
raise first): when `T ≤ 0`, `delta` silently treats any non-"call"
string as a put, and `theta` and `rho` return `0` without looking at the
option type. (`gamma` and `vega` take no option type at all.) -/
theorem invalid_option_type_rejection (Φ : ℝ → ℝ) (ot : String)
    (hc : lower ot ≠ "call") (hp : lower ot ≠ "put") (S K T r sigma : ℝ) :
    (T ≤ 0 →
      option_price Φ ot S K T r sigma =
        .error "option_type must be call or put" ∧
      delta Φ ot S K T r sigma = .ok (if S < K then -1 else 0) ∧
      theta Φ ot S K T r sigma = .ok 0 ∧
      rho Φ ot S K T r sigma = .ok 0) ∧
    (0 < T → 0 < S → 0 < K → 0 < sigma →
      option_price Φ ot S K T r sigma =
        .error "option_type must be call or put" ∧
      delta Φ ot S K T r sigma =
        .error "option_type must be call or put" ∧
      theta Φ ot S K T r sigma =
        .error "option_type must be call or put" ∧
      rho Φ ot S K T r sigma =
        .error "option_type must be call or put") := by
  constructor
  · intro hT
    norm_num [option_price, delta, theta, rho, hT, hc, hp]
  · intro hT hS hK hs
    have hsq : (0:ℝ) < Real.sqrt T := Real.sqrt_pos.mpr hT
    have h2s : (2 : ℝ) * Real.sqrt T ≠ 0 := by positivity
    simp [option_price, delta, theta, rho, not_le.mpr hT, hc, hp,
      d_1_ok S K T r sigma hS hK hT hs, d_2_ok S K T r sigma hS hK hT hs,
      pysqrt, not_lt.mpr hT.le, pydiv, h2s, hsq.ne']

/-- Witness for C3: the string "banana" at `T = 0` is rejected by
`option_price` but silently taken as a put by `delta` (value `0` at
`S = K`), while at `T = 1` all four type-dispatching operations reject
it. -/
theorem invalid_option_type_rejection_case :
    option_price (fun _ => 0) "banana" 100 100 0 0 1 =
      .error "option_type must be call or put" ∧
    delta (fun _ => 0) "banana" 100 100 0 0 1 = .ok 0 ∧
    option_price (fun _ => 0) "banana" 100 100 1 0 1 =
      .error "option_type must be call or put" ∧
    delta (fun _ => 0) "banana" 100 100 1 0 1 =
      .error "option_type must be call or put" ∧
    theta (fun _ => 0) "banana" 100 100 1 0 1 =
      .error "option_type must be call or put" ∧
    rho (fun _ => 0) "banana" 100 100 1 0 1 =
      .error "option_type must be call or put" := by
  have h0 := (invalid_option_type_rejection (fun _ => 0) "banana"
    (by decide) (by decide) 100 100 0 0 1).1 le_rfl
  have h1 := (invalid_option_type_rejection (fun _ => 0) "banana"
    (by decide) (by decide) 100 100 1 0 1).2 one_pos (by norm_num)
    (by norm_num) one_pos
  refine ⟨h0.1, ?_, h1.1, h1.2.1, h1.2.2.1, h1.2.2.2⟩
  rw [h0.2.1]
  norm_num

/-- C4: at `T ≤ 0` delta is the step function: `1` for a call when
`S > K` else `0`; `-1` for a put when `S < K` else `0`; both `0` at
`S = K`. -/
theorem delta_at_expiry_step (Φ : ℝ → ℝ) (otc otp : String)
    (S K T r sigma : ℝ) (hT : T ≤ 0)
    (hc : lower otc = "call") (hp : lower otp = "put") :
    delta Φ otc S K T r sigma = .ok (if K < S then 1 else 0) ∧
    delta Φ otp S K T r sigma = .ok (if S < K then -1 else 0) ∧
    (S = K →
      delta Φ otc S K T r sigma = .ok 0 ∧
      delta Φ otp S K T r sigma = .ok 0) := by
  have hpc : ("put":String) ≠ "call" := by decide
  refine ⟨by norm_num [delta, hT, hc],
    by norm_num [delta, hT, hp, hpc], ?_⟩
  rintro rfl
  norm_num [delta, hT, hc, hp, hpc]

/-- Witness for C4: at `T = 0`, `S = K = 100`, call and put delta are
both `0`; at `S = 105 > K` the call delta is `1`. -/
theorem delta_at_expiry_step_case :
    delta (fun _ => 0) "CALL" 100 100 0 0.05 0.2 = .ok 0 ∧
    delta (fun _ => 0) "pUt" 100 100 0 0.05 0.2 = .ok 0 ∧
    delta (fun _ => 0) "CALL" 105 100 0 0.05 0.2 = .ok 1 := by
  have h := delta_at_expiry_step (fun _ => 0) "CALL" "pUt" 100 100 0 0.05 0.2
    le_rfl (by decide) (by decide)
  have h2 := delta_at_expiry_step (fun _ => 0) "CALL" "pUt" 105 100 0 0.05 0.2
    le_rfl (by decide) (by decide)
  refine ⟨(h.2.2 rfl).1, (h.2.2 rfl).2, ?_⟩
  rw [h2.1]
  norm_num

/-- C5: for `S, K, sigma > 0` and `T ≥ 0`, with a cdf valued in `[0,1]`
(true of the standard normal cdf), the call delta lies in `[0,1]` and
the put delta lies in `[-1,0]`. -/
theorem delta_bounds (Φ : ℝ → ℝ) (hΦ : ∀ x, 0 ≤ Φ x ∧ Φ x ≤ 1)
    (S K T r sigma : ℝ) (hS : 0 < S) (hK : 0 < K) (hs : 0 < sigma)
    (hT : 0 ≤ T) :
    (∃ dc, delta Φ "call" S K T r sigma = .ok dc ∧ 0 ≤ dc ∧ dc ≤ 1) ∧
    (∃ dp, delta Φ "put" S K T r sigma = .ok dp ∧ -1 ≤ dp ∧ dp ≤ 0) := by
  rcases le_or_lt T 0 with h | h
  · constructor
    · refine ⟨if K < S then 1 else 0, ?_, ?_⟩
      · norm_num [delta, h, (show lower "call" = "call" from rfl)]
      · split <;> norm_num
    · refine ⟨if S < K then -1 else 0, ?_, ?_⟩
      · norm_num [delta, h, (show lower "put" = "put" from rfl),
          (show ("put":String) ≠ "call" by decide)]
      · split <;> norm_num
  · have hd := d_1_ok S K T r sigma hS hK h hs
    have hb := hΦ (d1val S K T r sigma)
    constructor
    · refine ⟨Φ (d1val S K T r sigma), ?_, hb.1, hb.2⟩
      simp [delta, not_le.mpr h, hd, (show lower "call" = "call" from rfl)]
    · refine ⟨Φ (d1val S K T r sigma) - 1, ?_, by linarith [hb.2],
        by linarith [hb.1]⟩
      simp [delta, not_le.mpr h, hd, (show lower "put" = "put" from rfl),
        (show ("put":String) ≠ "call" by decide)]

/-- Witness for C5: at `S = K = 1, T = 0, sigma = 1` with the constant
`1/2` cdf, both deltas succeed and satisfy their bounds. -/
theorem delta_bounds_case :
    (∃ dc, delta (fun _ => 1/2) "call" 1 1 0 0 1 = .ok dc ∧
      0 ≤ dc ∧ dc ≤ 1) ∧
    (∃ dp, delta (fun _ => 1/2) "put" 1 1 0 0 1 = .ok dp ∧
      -1 ≤ dp ∧ dp ≤ 0) :=
  delta_bounds (fun _ => 1/2) (fun x => by norm_num) 1 1 0 0 1
    one_pos one_pos one_pos le_rfl

/-- C6: `gamma` and `vega` take no option-type argument at all (so the
same value serves call and put by construction), succeed for
`S, K, sigma > 0` and `T ≥ 0`, and are non-negative. -/
theorem gamma_vega_nonneg (S K T r sigma : ℝ) (hS : 0 < S) (hK : 0 < K)
    (hs : 0 < sigma) (hT : 0 ≤ T) :
    (∃ g, gamma S K T r sigma = .ok g ∧ 0 ≤ g) ∧
    (∃ v, vega S K T r sigma = .ok v ∧ 0 ≤ v) := by
  rcases le_or_lt T 0 with h | h
  · exact ⟨⟨0, by norm_num [gamma, h], le_rfl⟩,
      ⟨0, by norm_num [vega, h], le_rfl⟩⟩
  · have hd := d_1_ok S K T r sigma hS hK h hs
    have hsq : (0:ℝ) < Real.sqrt T := Real.sqrt_pos.mpr h
    have hpdf : 0 ≤ pdf (d1val S K T r sigma) := by
      unfold pdf
      positivity
    constructor
    · refine ⟨pdf (d1val S K T r sigma) / (S * sigma * Real.sqrt T),
        ?_, div_nonneg hpdf (by positivity)⟩
      simp [gamma, not_le.mpr h, hd, pysqrt, not_lt.mpr h.le, pydiv,
        hS.ne', hs.ne', hsq.ne']
    · refine ⟨S * pdf (d1val S K T r sigma) * Real.sqrt T,
        ?_, by positivity⟩
      simp [vega, not_le.mpr h, hd, pysqrt, not_lt.mpr h.le]

/-- Witness for C6: at `S = K = 1, T = 0, sigma = 1` both `gamma` and
`vega` succeed with non-negative values. -/
theorem gamma_vega_nonneg_case :
    (∃ g, gamma 1 1 0 0 1 = .ok g ∧ 0 ≤ g) ∧
    (∃ v, vega 1 1 0 0 1 = .ok v ∧ 0 ≤ v) :=
  gamma_vega_nonneg 1 1 0 0 1 one_pos one_pos one_pos le_rfl

/-- C7: for `steps ≥ 1`, a successful `simulate_path` returns eight
sequences of length `steps+1`; the time points are `i · T/steps`
(equally spaced, first `0`, last `T`, so the last remaining time is
`0`); the first spot is `S0`; and at every index the price and Greek
entries are exactly the Core operations applied to
`(S[i], K, max(T - t_i, 0), r, sigma)`. -/
theorem simulate_path_spec (Φ : ℝ → ℝ) (S0 K T r sigma : ℝ)
    (option_type : String) (steps : ℕ) (z : ℕ → ℝ) (res : PathResult)
    (hsteps : 1 ≤ steps)
    (h : simulate_path Φ S0 K T r sigma option_type steps z = .ok res) :
    (res.times.length = steps + 1 ∧ res.S.length = steps + 1 ∧
      res.price.length = steps + 1 ∧ res.delta_arr.length = steps + 1 ∧
      res.gamma_arr.length = steps + 1 ∧ res.vega_arr.length = steps + 1 ∧
      res.theta_arr.length = steps + 1 ∧ res.rho_arr.length = steps + 1) ∧
    (∀ i : ℕ, i ≤ steps →
      res.times.getD i 0 = (i : ℝ) * (T / (steps : ℝ))) ∧
    res.times.getD 0 0 = 0 ∧ res.times.getD steps 0 = T ∧
    max (T - res.times.getD steps 0) 0 = 0 ∧
    res.S.getD 0 0 = S0 ∧
    (∀ i : ℕ, i ≤ steps →
      option_price Φ option_type (res.S.getD i 0) K
        (max (T - res.times.getD i 0) 0) r sigma =
        .ok (res.price.getD i 0) ∧
      delta Φ option_type (res.S.getD i 0) K
        (max (T - res.times.getD i 0) 0) r sigma =
        .ok (res.delta_arr.getD i 0) ∧
      gamma (res.S.getD i 0) K (max (T - res.times.getD i 0) 0) r sigma =
        .ok (res.gamma_arr.getD i 0) ∧
      vega (res.S.getD i 0) K (max (T - res.times.getD i 0) 0) r sigma =
        .ok (res.vega_arr.getD i 0) ∧
      theta Φ option_type (res.S.getD i 0) K
        (max (T - res.times.getD i 0) 0) r sigma =
        .ok (res.theta_arr.getD i 0) ∧
      rho Φ option_type (res.S.getD i 0) K
        (max (T - res.times.getD i 0) 0) r sigma =
        .ok (res.rho_arr.getD i 0)) := by
  rw [simulate_path] at h
  simp only [bind_ok_iff] at h
  obtain ⟨gs, hgs, hmk⟩ := h
  rw [Except.ok.injEq] at hmk
  subst hmk
  obtain ⟨hlen, hall⟩ := collectFrom_ok _ _ _ _ hgs
  have hns : (steps : ℝ) ≠ 0 := Nat.cast_ne_zero.mpr (by omega)
  have htime : ∀ i : ℕ, i ≤ steps →
      (((List.range (steps + 1)).map
        (fun i : ℕ => (i : ℝ) * (T / (steps : ℝ)))).getD i 0) =
        (i : ℝ) * (T / (steps : ℝ)) :=
    fun i hi => getD_map_range _ (steps + 1) i (by omega) _
  have hspot : ∀ i : ℕ, i ≤ steps →
      (((List.range (steps + 1)).map
        (fun i => spotPath S0 T r sigma steps z i)).getD i 0) =
        spotPath S0 T r sigma steps z i :=
    fun i hi => getD_map_range _ (steps + 1) i (by omega) _
  refine ⟨⟨by simp, by simp, by simp [hlen], by simp [hlen], by simp [hlen],
    by simp [hlen], by simp [hlen], by simp [hlen]⟩, htime, ?_, ?_, ?_, ?_, ?_⟩
  · rw [htime 0 (by omega)]
    norm_num
  · rw [htime steps le_rfl]
    field_simp
  · rw [htime steps le_rfl]
    field_simp
  · rw [hspot 0 (by omega)]
    rfl
  · intro i hi
    have hilen : i < gs.length := by
      rw [hlen]
      omega
    have hfi := hall (0, 0, 0, 0, 0, 0) i (by omega)
    rw [Nat.zero_add] at hfi
    obtain ⟨h1, h2, h3, h4, h5, h6⟩ := greeksAt_ok hfi
    rw [htime i hi, hspot i hi]
    refine ⟨?_, ?_, ?_, ?_, ?_, ?_⟩
    · rw [getD_map_tuple _ _ _ hilen _ (0, 0, 0, 0, 0, 0)]
      exact h1
    · rw [getD_map_tuple _ _ _ hilen _ (0, 0, 0, 0, 0, 0)]
      exact h2
    · rw [getD_map_tuple _ _ _ hilen _ (0, 0, 0, 0, 0, 0)]
      exact h3
    · rw [getD_map_tuple _ _ _ hilen _ (0, 0, 0, 0, 0, 0)]
      exact h4
    · rw [getD_map_tuple _ _ _ hilen _ (0, 0, 0, 0, 0, 0)]
      exact h5
    · rw [getD_map_tuple _ _ _ hilen _ (0, 0, 0, 0, 0, 0)]
      exact h6

/-- Witness for C7: the concrete run `S0=105, K=100, T=0, r=0, sigma=1,
steps=1` with zero draws and the constant `1/2` cdf succeeds, and the
specification theorem yields its lengths, last time point and first
spot. -/
theorem simulate_path_spec_case :
    ∃ res, simulate_path (fun _ => 1/2) 105 100 0 0 1 "call" 1
      (fun _ => 0) = .ok res ∧
      res.times.length = 1 + 1 ∧ res.S.length = 1 + 1 ∧
      res.times.getD 1 0 = 0 ∧ res.S.getD 0 0 = 105 := by
  have h5 : spotPath 105 0 0 1 1 (fun _ => 0) 0 = 105 := rfl
  have h6 : spotPath 105 0 0 1 1 (fun _ => 0) 1 = 105 := by
    norm_num [spotPath, Real.sqrt_zero, Real.exp_zero]
  have hg : greeksAt (fun _ => 1/2) "call" 105 100 0 0 1 =
      .ok (5, 1, 0, 0, 0, 0) := by
    norm_num [greeksAt, option_price, delta, gamma, vega, theta, rho,
      (show lower "call" = "call" from rfl)]
  have hcol : collectFrom (fun i => greeksAt (fun _ => 1/2) "call"
      (spotPath 105 0 0 1 1 (fun _ => 0) i) 100 0 0 1) 0 2 =
      .ok [(5, 1, 0, 0, 0, 0), (5, 1, 0, 0, 0, 0)] := by
    norm_num [collectFrom, h5, h6, hg]
  have hres : simulate_path (fun _ => 1/2) 105 100 0 0 1 "call" 1
      (fun _ => 0) =
      .ok ⟨[0, 0], [105, 105], [5, 5], [1, 1], [0, 0], [0, 0],
        [0, 0], [0, 0]⟩ := by
    norm_num [simulate_path, hcol, List.range_succ, h5, h6]
  have h := simulate_path_spec (fun _ => 1/2) 105 100 0 0 1 "call" 1
    (fun _ => 0) _ le_rfl hres
  exact ⟨_, hres, h.1.1, h.1.2.1, h.2.2.2.1, h.2.2.2.2.2.1⟩

/-- C8 (code-bug evidence): with a negative volatility and `T > 0`, the
code raises nothing and silently returns a Black-Scholes-shaped value,
for any cdf. Here `sigma = -1`, `S = K = 100`, `T = 1`, `r = 0`. -/
theorem option_price_negative_sigma_silent (Φ : ℝ → ℝ) :
    ∃ x, option_price Φ "call" 100 100 1 0 (-1) = .ok x := by
  have h1 : d_1 100 100 1 0 (-1) = .ok (d1val 100 100 1 0 (-1)) := by
    have hq : ¬ (100:ℝ) / 100 ≤ 0 := by norm_num
    norm_num [d_1, pydiv, pylog, pysqrt, hq, d1val, Real.sqrt_one]
  have h2 : d_2 100 100 1 0 (-1) = .ok (d2val 100 100 1 0 (-1)) := by
    norm_num [d_2, h1, pysqrt, d2val]
  refine ⟨100 * Φ (d1val 100 100 1 0 (-1)) -
    100 * Real.exp (-0 * 1) * Φ (d2val 100 100 1 0 (-1)), ?_⟩
  norm_num [option_price, h1, h2, (show lower "call" = "call" from rfl)]

/-- C9: two runs of `simulate_path` with the same seed and the same
parameters produce identical outputs (all eight sequences), whatever
the ambient generator states `g1`, `g2` were before the two calls:
seeding makes the draw sequence depend on the seed alone. (Bit-level
float identity is modelled as equality of the real-valued outputs.) -/
theorem simulate_path_seed_reproducible (Φ : ℝ → ℝ)
    (stepFn : ℕ → ℝ × ℕ) (seedFn : ℕ → ℕ) (g1 g2 : ℕ) (s : ℕ)
    (S0 K T r sigma : ℝ) (option_type : String) (steps : ℕ) :
    simulate_path_seeded Φ stepFn seedFn g1 (some s)
      S0 K T r sigma option_type steps =
    simulate_path_seeded Φ stepFn seedFn g2 (some s)
      S0 K T r sigma option_type steps := rfl

/-- C10: whenever `T ≤ 0`, `gamma`, `vega`, `theta` and `rho` return `0`
for every `S`, `K`, `r`, `sigma` and every option-type string, raising
no error. -/
theorem expiry_greeks_zero (Φ : ℝ → ℝ) (ot : String) (S K T r sigma : ℝ)
    (hT : T ≤ 0) :
    gamma S K T r sigma = .ok 0 ∧ vega S K T r sigma = .ok 0 ∧
    theta Φ ot S K T r sigma = .ok 0 ∧ rho Φ ot S K T r sigma = .ok 0 := by
  norm_num [gamma, vega, theta, rho, hT]

/-- Witness for C10: at `T = 0` with an invalid option type and invalid
numeric inputs (`S = -5`, `K = 0`, `sigma = -1`), all four Greeks are
`0` and nothing raises. -/
theorem expiry_greeks_zero_case :
    gamma (-5) 0 0 2 (-1) = .ok 0 ∧ vega (-5) 0 0 2 (-1) = .ok 0 ∧
    theta (fun _ => 0) "banana" (-5) 0 0 2 (-1) = .ok 0 ∧
    rho (fun _ => 0) "banana" (-5) 0 0 2 (-1) = .ok 0 :=
  expiry_greeks_zero (fun _ => 0) "banana" (-5) 0 0 2 (-1) le_rfl

end Greeks
